import Mathlib

/-!
A verification development for the `ipUtils` module of the
`bridge_configurator` repository (`src/utils/ipUtils.js`).

The module is a small library of pure functions over IPv4/IPv6 address
strings: strict/lenient syntax validation, version detection, subnet-mask
normalization to a CIDR prefix length, public-address classification,
same-subnet membership, and host-address sanity checking.

The JavaScript code is embedded shallowly: strings are Lean `String`s
(manipulated as `List Char`), JavaScript's `string | number` parameters
become the sum type `JSValue`, and machine arithmetic is `Nat`/`Int` with
explicit masking.  The module's external collaborator, a general-purpose
IP-address parsing primitive (the `ipaddr.js` package, not part of the
repository), is modelled from the specification's description of the
interface it must provide: per-family textual validity checks (strict
four-part decimal IPv4 vs. lenient shorthand-accepting IPv4; IPv6 with
`::` compression), parse-to-typed-address, range classification,
prefix masking, network/broadcast derivation, and dotted-decimal
subnet-mask to prefix-length conversion.
-/

/-! ## Character utilities -/

/-- Decimal digit test: `'0'` through `'9'`. -/
def isDigitChar (c : Char) : Bool :=
  decide (48 ≤ c.toNat ∧ c.toNat ≤ 57)

/-- Hexadecimal digit test (both cases). -/
def isHexDigitChar (c : Char) : Bool :=
  isDigitChar c || decide (97 ≤ c.toNat ∧ c.toNat ≤ 102) ||
    decide (65 ≤ c.toNat ∧ c.toNat ≤ 70)

/-- Whitespace test, covering the characters JavaScript's trim removes
that can occur in the inputs modelled here. -/
def isWSChar (c : Char) : Bool :=
  decide (c = ' ' ∨ c = '\t' ∨ c = '\n' ∨ c = '\r' ∨ c.toNat = 11 ∨ c.toNat = 12)

/-- Numeric value of a decimal digit character. -/
def digitVal (c : Char) : Nat := c.toNat - 48

/-- Numeric value of a hexadecimal digit character. -/
def hexVal (c : Char) : Nat :=
  if isDigitChar c then c.toNat - 48
  else if c.toNat ≤ 70 then c.toNat - 55
  else c.toNat - 87

/-- The decimal digit character for a value below ten. -/
def digitChar : Nat → Char
  | 0 => '0' | 1 => '1' | 2 => '2' | 3 => '3' | 4 => '4'
  | 5 => '5' | 6 => '6' | 7 => '7' | 8 => '8' | 9 => '9'
  | _ => '*'

/-- The lowercase hexadecimal digit character for a value below sixteen. -/
def hexDigitChar : Nat → Char
  | 0 => '0' | 1 => '1' | 2 => '2' | 3 => '3' | 4 => '4'
  | 5 => '5' | 6 => '6' | 7 => '7' | 8 => '8' | 9 => '9'
  | 10 => 'a' | 11 => 'b' | 12 => 'c' | 13 => 'd' | 14 => 'e' | 15 => 'f'
  | _ => '*'

/-! ## Decimal and hexadecimal rendering and reading -/

/-- Fuel-based digit expansion of a natural number, most significant first. -/
def natToStrAux : Nat → Nat → List Char
  | 0, _ => []
  | fuel + 1, n =>
    if n < 10 then [digitChar n]
    else natToStrAux fuel (n / 10) ++ [digitChar (n % 10)]

/-- Decimal rendering of a natural number. -/
def natToStr (n : Nat) : List Char := natToStrAux (n + 1) n

/-- Decimal rendering of an integer, as JavaScript `String(n)` renders it. -/
def intToStr (n : Int) : List Char :=
  if n < 0 then '-' :: natToStr (-n).toNat else natToStr n.toNat

/-- Fuel-based lowercase hexadecimal expansion of a natural number. -/
def natToHexAux : Nat → Nat → List Char
  | 0, _ => []
  | fuel + 1, n =>
    if n < 16 then [hexDigitChar n]
    else natToHexAux fuel (n / 16) ++ [hexDigitChar (n % 16)]

/-- Lowercase hexadecimal rendering of a natural number. -/
def hexStr (n : Nat) : List Char := natToHexAux (n + 1) n

/-- Value of a decimal digit string, accumulator form. -/
def digitsValAux : Nat → List Char → Nat
  | acc, [] => acc
  | acc, c :: rest => digitsValAux (acc * 10 + digitVal c) rest

/-- Value of a decimal digit string. -/
def digitsVal (cs : List Char) : Nat := digitsValAux 0 cs

/-- Value of a hexadecimal digit string. -/
def hexValList (cs : List Char) : Nat :=
  cs.foldl (fun a c => a * 16 + hexVal c) 0

/-! ## List-of-characters splitting and joining -/

/-- Split a character list on a separator character; adjacent separators
yield empty parts, as JavaScript's `split` does. -/
def splitSep (sep : Char) : List Char → List (List Char)
  | [] => [[]]
  | c :: rest =>
    match splitSep sep rest with
    | [] => [[c]]
    | p :: ps => if c = sep then [] :: p :: ps else (c :: p) :: ps

/-- Join parts with a separator character, inverse of `splitSep`. -/
def joinSep (sep : Char) : List (List Char) → List Char
  | [] => []
  | [p] => p
  | p :: q :: ps => p ++ sep :: joinSep sep (q :: ps)

/-- Split a character list at the last occurrence of a separator, the way a
greedy regular expression such as the one in the CIDR parser does. -/
def splitLast (sep : Char) : List Char → Option (List Char × List Char)
  | [] => none
  | c :: rest =>
    match splitLast sep rest with
    | some (l, r) => some (c :: l, r)
    | none => if c = sep then some ([], rest) else none

/-- Split at the first occurrence of two consecutive colons, used for the
compressed-zero part of IPv6 textual forms. -/
def splitDoubleColon : List Char → Option (List Char × List Char)
  | [] => none
  | [_] => none
  | a :: b :: rest =>
    if a = ':' ∧ b = ':' then some ([], rest)
    else
      match splitDoubleColon (b :: rest) with
      | some (l, r) => some (a :: l, r)
      | none => none

/-- Both-ends whitespace trim, modelling JavaScript's `String.prototype.trim`. -/
def trimList (cs : List Char) : List Char :=
  ((cs.dropWhile isWSChar).reverse.dropWhile isWSChar).reverse

/-! ## JavaScript value model

The subnet parameter of the module has JavaScript type `string | number`;
only integral numbers occur (the code immediately stringifies them).  A
value is falsy exactly when it is the number `0` or the empty string. -/

/-- A JavaScript value that is either a string or an (integral) number. -/
inductive JSValue where
  | num (n : Int)
  | str (s : String)

/-- JavaScript truthiness test (`!subnet`): the number 0 and the empty
string are the falsy values of type `string | number`. -/
def jsFalsy : JSValue → Bool
  | JSValue.num n => decide (n = 0)
  | JSValue.str s => decide (s = "")

/-- JavaScript `String(v)` coercion for the modelled values. -/
def jsToString : JSValue → List Char
  | JSValue.num n => intToStr n
  | JSValue.str s => s.data

/-- Strip a single leading sign character, as `Number` and `parseInt` do. -/
def stripSign (cs : List Char) : List Char :=
  match cs with
  | [] => []
  | c :: r => if c = '+' ∨ c = '-' then r else c :: r

/-- Optional exponent suffix of a JavaScript decimal numeric literal. -/
def isExpOpt (cs : List Char) : Bool :=
  match cs with
  | [] => true
  | c :: rest =>
    decide (c = 'e' ∨ c = 'E') &&
      (let b := stripSign rest
       decide (b ≠ []) && b.all isDigitChar)

/-- Unsigned decimal numeric literal: digits with optional fraction and
optional exponent, or a fraction-only form. -/
def isUnsignedDecimal (cs : List Char) : Bool :=
  let intPart := cs.takeWhile isDigitChar
  let rest := cs.dropWhile isDigitChar
  match rest with
  | [] => decide (intPart ≠ [])
  | c :: r2 =>
    if c = '.' then
      let frac := r2.takeWhile isDigitChar
      (decide (intPart ≠ []) || decide (frac ≠ [])) && isExpOpt (r2.dropWhile isDigitChar)
    else decide (intPart ≠ []) && isExpOpt (c :: r2)

/-- Test whether a leading `0x`/`0X` hexadecimal prefix is present. -/
def isHexPrefixed : List Char → Bool
  | a :: b :: _ => decide (a = '0') && decide (b = 'x' ∨ b = 'X')
  | _ => false

/-- Models `!isNaN(s)` on an already-trimmed string: JavaScript's `Number`
coercion yields a non-NaN value exactly for the empty string, decimal
literals (optionally signed, with optional fraction and exponent),
`Infinity` forms, and prefixed hexadecimal literals. -/
def jsIsNumericTrimmed (cs : List Char) : Bool :=
  if cs = [] then true
  else if isHexPrefixed cs then
    match cs with
    | _ :: _ :: r => decide (r ≠ []) && r.all isHexDigitChar
    | _ => false
  else
    let b := stripSign cs
    decide (b = ('I' :: 'n' :: 'f' :: 'i' :: 'n' :: 'i' :: 't' :: 'y' :: [])) ||
      isUnsignedDecimal b

/-- Leading decimal-digit run of a string, as a natural number; `none`
when there is no leading digit. -/
def parseDigits (cs : List Char) : Option Nat :=
  let ds := cs.takeWhile isDigitChar
  if ds = [] then none else some (digitsVal ds)

/-- Models JavaScript `parseInt(s, 10)` on an already-trimmed string, with
`none` for NaN: an optional sign followed by at least one decimal digit;
trailing non-digit characters are ignored. -/
def jsParseInt10 (cs : List Char) : Option Int :=
  match cs with
  | [] => none
  | c :: rest =>
    if c = '-' then (parseDigits rest).map (fun v => -(v : Int))
    else if c = '+' then (parseDigits rest).map (fun v => (v : Int))
    else (parseDigits (c :: rest)).map (fun v => (v : Int))

/-! ## The external IP-address parsing primitive

Modelled from the spec: the repository depends on a general-purpose
IP-address parsing package (`ipaddr.js`) whose code is not part of the
repository.  The specification (section 6) enumerates the operations the
collaborator must supply; they are modelled here.  The lenient IPv4 parser
accepts dotted decimal with two to four parts (shorthand forms such as
`192.168.1`, where the final part fills the remaining bytes), while the
strict check additionally requires exactly four plain decimal parts with
no leading zeros.  The IPv6 parser accepts up to eight colon-separated
groups of at most four hexadecimal digits with at most one `::`
compression. -/

/-- Modelled from the spec: one dotted-decimal part, a nonempty run of
decimal digits. -/
def parseDecPart (cs : List Char) : Option Nat :=
  if cs ≠ [] ∧ cs.all isDigitChar = true then some (digitsVal cs) else none

/-- Modelled from the spec: lenient IPv4 textual parse (the collaborator's
generic IPv4 validity notion), producing the four octets.  Two- and
three-part shorthand forms are accepted, with the final part filling the
remaining bytes. -/
def ipv4ParseData (cs : List Char) : Option (List Nat) :=
  match splitSep '.' cs with
  | [a, b] =>
    match parseDecPart a, parseDecPart b with
    | some x, some y =>
      if x ≤ 255 ∧ y ≤ 16777215 then
        some [x, y / 65536 % 256, y / 256 % 256, y % 256]
      else none
    | _, _ => none
  | [a, b, c] =>
    match parseDecPart a, parseDecPart b, parseDecPart c with
    | some x, some y, some z =>
      if x ≤ 255 ∧ y ≤ 255 ∧ z ≤ 65535 then
        some [x, y, z / 256 % 256, z % 256]
      else none
    | _, _, _ => none
  | [a, b, c, d] =>
    match parseDecPart a, parseDecPart b, parseDecPart c, parseDecPart d with
    | some x, some y, some z, some w =>
      if x ≤ 255 ∧ y ≤ 255 ∧ z ≤ 255 ∧ w ≤ 255 then some [x, y, z, w] else none
    | _, _, _, _ => none
  | _ => none

/-- One part of the strict four-part-decimal grammar: `0`, or a nonzero
digit followed by digits (no leading zeros). -/
def decNoLeadZero (cs : List Char) : Bool :=
  match cs with
  | [] => false
  | c :: rest => isDigitChar c && rest.all isDigitChar && (decide (c ≠ '0') || decide (rest = []))

/-- The four-part-decimal shape test applied on top of generic IPv4
validity by the strict check. -/
def ipv4FourPartShape (cs : List Char) : Bool :=
  match splitSep '.' cs with
  | [a, b, c, d] => decNoLeadZero a && decNoLeadZero b && decNoLeadZero c && decNoLeadZero d
  | _ => false

/-- Modelled from the spec: the strict IPv4 validity check
(`ipaddr.IPv4.isValidFourPartDecimal`): generically valid IPv4 and of
full four-part plain-decimal shape. -/
def ipv4IsValidFourPartDecimal (cs : List Char) : Bool :=
  (ipv4ParseData cs).isSome && ipv4FourPartShape cs

/-- Modelled from the spec: one IPv6 group, one to four hexadecimal digits. -/
def parseHexGroup (cs : List Char) : Option Nat :=
  if cs ≠ [] ∧ cs.length ≤ 4 ∧ cs.all isHexDigitChar = true then some (hexValList cs)
  else none

/-- Parse a list of IPv6 groups, failing if any is malformed. -/
def parseGroups : List (List Char) → Option (List Nat)
  | [] => some []
  | p :: rest =>
    match parseHexGroup p, parseGroups rest with
    | some v, some vs => some (v :: vs)
    | _, _ => none

/-- Modelled from the spec: IPv6 textual parse accepting any legal form,
including `::` compression, producing the eight 16-bit groups. -/
def ipv6ParseData (cs : List Char) : Option (List Nat) :=
  if cs.all (fun c => isHexDigitChar c || decide (c = ':')) = false then none
  else
    match splitDoubleColon cs with
    | none =>
      match parseGroups (splitSep ':' cs) with
      | some gs => if gs.length = 8 then some gs else none
      | none => none
    | some (l, r) =>
      if (splitDoubleColon r).isSome then none
      else
        match (if l = [] then some [] else parseGroups (splitSep ':' l)),
              (if r = [] then some [] else parseGroups (splitSep ':' r)) with
        | some ls, some rs =>
          if ls.length + rs.length ≤ 7 then
            some (ls ++ List.replicate (8 - ls.length - rs.length) 0 ++ rs)
          else none
        | _, _ => none

/-- A parsed address: the address-family tag together with the byte-level
representation (four octets for IPv4, eight 16-bit groups for IPv6). -/
inductive IPAddr where
  | v4 (octets : List Nat)
  | v6 (groups : List Nat)
deriving DecidableEq

/-- The family tag of a parsed address, as the collaborator's `kind()`. -/
def ipKind : IPAddr → String
  | IPAddr.v4 _ => "ipv4"
  | IPAddr.v6 _ => "ipv6"

/-- Modelled from the spec: the unified parse of either family
(`ipaddr.parse`), trying IPv6 first as the collaborator does; `none`
models a parse exception. -/
def ipaddrParse (s : String) : Option IPAddr :=
  match ipv6ParseData s.data with
  | some g => some (IPAddr.v6 g)
  | none => (ipv4ParseData s.data).map IPAddr.v4

/-- Modelled from the spec: the unified validity check (`ipaddr.isValid`). -/
def ipaddrIsValid (s : String) : Bool := (ipaddrParse s).isSome

/-- 32-bit value of four octets. -/
def octetsToNat (o : List Nat) : Nat := o.foldl (fun a x => a * 256 + x) 0

/-- Four octets of a 32-bit value. -/
def natToOctets (v : Nat) : List Nat :=
  [v / 16777216 % 256, v / 65536 % 256, v / 256 % 256, v % 256]

/-- 128-bit value of eight 16-bit groups. -/
def groupsToNat (g : List Nat) : Nat := g.foldl (fun a x => a * 65536 + x) 0

/-- Eight 16-bit groups of a 128-bit value. -/
def natToGroups (v : Nat) : List Nat :=
  [v / 2 ^ 112 % 65536, v / 2 ^ 96 % 65536, v / 2 ^ 80 % 65536, v / 2 ^ 64 % 65536,
   v / 2 ^ 48 % 65536, v / 2 ^ 32 % 65536, v / 2 ^ 16 % 65536, v % 65536]

/-- Keep the top `p` bits of a `w`-bit value, clearing the host bits:
the prefix mask operation every comparison below is built on. -/
def maskBits (v p w : Nat) : Nat := v / 2 ^ (w - p) * 2 ^ (w - p)

/-- Canonical dotted-decimal rendering of four octets (`toString`). -/
def v4ToString (o : List Nat) : List Char := joinSep '.' (o.map natToStr)

/-- Length of the leading run of zero groups. -/
def zeroRunLen : List Nat → Nat
  | 0 :: rest => 1 + zeroRunLen rest
  | _ => 0

/-- Find the leftmost longest run of zero groups: scanning state is the
current index and the best (start, length) so far. -/
def bestRunAux : List Nat → Nat → Nat × Nat → Nat × Nat
  | [], _, best => best
  | g :: rest, i, (bs, bl) =>
    let l := zeroRunLen (g :: rest)
    bestRunAux rest (i + 1) (if bl < l then (i, l) else (bs, bl))

/-- Modelled from the spec: canonical compressed textual rendering of an
IPv6 address (`toString`): lowercase hexadecimal groups joined by colons,
with the leftmost longest run of zero groups compressed to `::`. -/
def v6ToString (g : List Nat) : List Char :=
  let best := bestRunAux g 0 (0, 0)
  if best.2 = 0 then joinSep ':' (g.map hexStr)
  else
    joinSep ':' ((g.take best.1).map hexStr) ++
      ':' :: ':' :: joinSep ':' ((g.drop (best.1 + best.2)).map hexStr)

/-- Modelled from the spec: IPv4 address-range classification,
distinguishing globally routable unicast from the special-purpose ranges
(unspecified, broadcast, multicast, link-local, loopback, carrier-grade
NAT, the three private blocks, and the reserved blocks). -/
def rangeV4 (v : Nat) : String :=
  if maskBits v 8 32 = 0 then "unspecified"
  else if v = 4294967295 then "broadcast"
  else if maskBits v 4 32 = 3758096384 then "multicast"
  else if maskBits v 16 32 = 2851995648 then "linkLocal"
  else if maskBits v 8 32 = 2130706432 then "loopback"
  else if maskBits v 10 32 = 1681915904 then "carrierGradeNat"
  else if maskBits v 8 32 = 167772160 ∨ maskBits v 12 32 = 2886729728 ∨
          maskBits v 16 32 = 3232235520 then "private"
  else if maskBits v 24 32 = 3221225472 ∨ maskBits v 24 32 = 3227017984 ∨
          maskBits v 15 32 = 3323068416 ∨ maskBits v 24 32 = 3325256704 ∨
          maskBits v 24 32 = 3405803776 ∨ maskBits v 4 32 = 4026531840 then "reserved"
  else "unicast"

/-- Modelled from the spec: IPv6 address-range classification. -/
def rangeV6 (v : Nat) : String :=
  if v = 0 then "unspecified"
  else if v = 1 then "loopback"
  else if maskBits v 8 128 = 255 * 2 ^ 120 then "multicast"
  else if maskBits v 10 128 = 65152 * 2 ^ 112 then "linkLocal"
  else if maskBits v 7 128 = 64512 * 2 ^ 112 then "uniqueLocal"
  else if maskBits v 96 128 = 65535 * 2 ^ 32 then "ipv4Mapped"
  else "unicast"

/-- Modelled from the spec: range classification of a parsed address
(`range()`). -/
def addrRange : IPAddr → String
  | IPAddr.v4 o => rangeV4 (octetsToNat o)
  | IPAddr.v6 g => rangeV6 (groupsToNat g)

/-- Modelled from the spec: prefix match of two parsed addresses
(`match`), true when the two addresses agree on the first `cidr` bits;
addresses of different families never match. -/
def matchAddr (a b : IPAddr) (cidr : Nat) : Bool :=
  match a, b with
  | IPAddr.v4 o1, IPAddr.v4 o2 =>
    maskBits (octetsToNat o1) cidr 32 == maskBits (octetsToNat o2) cidr 32
  | IPAddr.v6 g1, IPAddr.v6 g2 =>
    maskBits (groupsToNat g1) cidr 128 == maskBits (groupsToNat g2) cidr 128
  | _, _ => false

/-- Modelled from the spec: conversion of a dotted-decimal subnet-mask
value (as a 32-bit number) to its prefix length, failing unless the bit
pattern is a contiguous run of leading one-bits
(`prefixLengthFromSubnetMask`). -/
def prefixLengthFromSubnetMask (v : Nat) : Option Nat :=
  (List.range 33).find? (fun p => v == 4294967296 - 2 ^ (32 - p))

/-- Modelled from the spec: parse of an `address/prefix` CIDR string for
IPv4 (`parseCIDR`), splitting at the last slash, with the prefix a plain
decimal number of at most 32. -/
def parseCIDRv4 (cs : List Char) : Option (List Nat × Nat) :=
  match splitLast '/' cs with
  | none => none
  | some (l, r) =>
    if l ≠ [] ∧ r ≠ [] ∧ r.all isDigitChar = true then
      match ipv4ParseData l with
      | some o => if digitsVal r ≤ 32 then some (o, digitsVal r) else none
      | none => none
    else none

/-- Modelled from the spec: the network address of an IPv4 CIDR string
(`networkAddressFromCIDR`): the address with the host bits cleared. -/
def networkAddressFromCIDR (cs : List Char) : Option (List Nat) :=
  match parseCIDRv4 cs with
  | some (o, p) => some (natToOctets (maskBits (octetsToNat o) p 32))
  | none => none

/-- Modelled from the spec: the broadcast address of an IPv4 CIDR string
(`broadcastAddressFromCIDR`): the network address with the host bits set. -/
def broadcastAddressFromCIDR (cs : List Char) : Option (List Nat) :=
  match parseCIDRv4 cs with
  | some (o, p) => some (natToOctets (maskBits (octetsToNat o) p 32 + (2 ^ (32 - p) - 1)))
  | none => none

/-! ## The ipUtils module

These definitions embed `src/utils/ipUtils.js` itself, one definition per
exported function, following the source line by line. -/

/-- Embeds `validateIp`: true iff the string is a valid IPv6 address or a
strict four-part-decimal IPv4 address. -/
def validateIp (ip : String) : Bool :=
  if (ipv6ParseData ip.data).isSome then true
  else if ipv4IsValidFourPartDecimal ip.data then true
  else false

/-- Embeds `getIpVersion`: the kind of the parsed address when the string
is generically valid, `none` otherwise. -/
def getIpVersion (ip : String) : Option String :=
  match ipaddrParse ip with
  | some addr => some (ipKind addr)
  | none => none

/-- Embeds the dotted-decimal arm of `convertSubnetToCidr`: only for IPv4,
a generically valid IPv4 string interpreted as a subnet mask, converted to
its prefix length; `none` when the mask is not contiguous. -/
def subnetDottedCheck (subnetString : List Char) (ipVersion : String) : Option Nat :=
  if ipVersion = "ipv4" then
    match ipv4ParseData subnetString with
    | some octets => prefixLengthFromSubnetMask (octetsToNat octets)
    | none => none
  else none

/-- The part of `convertSubnetToCidr` after stringify-and-trim and version
detection: the numeric CIDR branch (`!isNaN` guard, `parseInt`, integer
range check against the family's maximum) falling through to the
dotted-decimal branch. -/
def convertSubnetToCidrBody (subnetString : List Char) (ipVersion : String) : Option Nat :=
  match (if jsIsNumericTrimmed subnetString then jsParseInt10 subnetString else none) with
  | some cidr =>
    if 0 ≤ cidr ∧ cidr ≤ (if ipVersion = "ipv6" then (128 : Int) else 32) then some cidr.toNat
    else subnetDottedCheck subnetString ipVersion
  | none => subnetDottedCheck subnetString ipVersion

/-- Embeds `convertSubnetToCidr`: `none` for falsy input, otherwise the
stringified and trimmed subnet is read as a CIDR number (bounded by the
reference address's family, defaulting to IPv4 when the reference is
invalid) or, failing that, as an IPv4 dotted-decimal mask. -/
def convertSubnetToCidr (subnet : JSValue) (ipForVersionDetection : String) : Option Nat :=
  if jsFalsy subnet then none
  else convertSubnetToCidrBody (trimList (jsToString subnet))
    ((getIpVersion ipForVersionDetection).getD "ipv4")

/-- Embeds `validateSubnet`: the subnet normalizes to a prefix length. -/
def validateSubnet (subnet : JSValue) (ipAddress : String) : Bool :=
  (convertSubnetToCidr subnet ipAddress).isSome

/-- Embeds `isPublicIp`: strictly valid and classified exactly `unicast`. -/
def isPublicIp (ip : String) : Bool :=
  if validateIp ip = false then false
  else
    match ipaddrParse ip with
    | some addr => addrRange addr == "unicast"
    | none => false

/-- Embeds `isSameSubnet`: the prefix length is derived from the first
address's family; invalid addresses, an unnormalizable subnet, or a family
mismatch yield false, otherwise a prefix match of the two addresses. -/
def isSameSubnet (ip1 ip2 : String) (subnet : JSValue) : Bool :=
  match convertSubnetToCidr subnet ip1 with
  | none => false
  | some cidr =>
    if validateIp ip1 = false ∨ validateIp ip2 = false then false
    else
      match ipaddrParse ip1, ipaddrParse ip2 with
      | some addr1, some addr2 =>
        if ipKind addr1 ≠ ipKind addr2 then false
        else matchAddr addr1 addr2 cidr
      | _, _ => false

/-- The IPv4 arm of `checkIpAndSubnet`: build the `ip/cidr` string, derive
the network and broadcast addresses from it, and reject the ip when its
text equals either one's text and the prefix is shorter than 31; a failed
derivation (the caught exception) yields the invalid-subnet-mask message. -/
def checkIpAndSubnetV4 (ip : String) (cidr : Nat) : Option String :=
  match networkAddressFromCIDR (ip.data ++ '/' :: natToStr cidr),
        broadcastAddressFromCIDR (ip.data ++ '/' :: natToStr cidr) with
  | some na, some ba =>
    if ip.data = v4ToString na ∧ cidr < 31 then
      some "IP address cannot be the network address."
    else if ip.data = v4ToString ba ∧ cidr < 31 then
      some "IP address cannot be the broadcast address."
    else none
  | _, _ => some "Invalid subnet mask."

/-- The IPv6 arm of `checkIpAndSubnet`: mask the parsed address to `cidr`
bits and reject the ip when its text equals the masked address's text and
the prefix is shorter than 127. -/
def checkIpAndSubnetV6 (ip : String) (groups : List Nat) (cidr : Nat) : Option String :=
  if ip.data = v6ToString (natToGroups (maskBits (groupsToNat groups) cidr 128)) ∧ cidr < 127
  then some "IP address cannot be the network address."
  else none

/-- Embeds `checkIpAndSubnet`: format check, then rejection of the
network address (both families) and of the broadcast address (IPv4 only),
with the point-to-point and host-route prefix lengths exempt; failures of
the mask computation surface as the invalid-subnet-mask message. -/
def checkIpAndSubnet (ip : String) (subnet : JSValue) : Option String :=
  match convertSubnetToCidr subnet ip with
  | none => some "Invalid IP or Subnet format."
  | some cidr =>
    if validateIp ip = false then some "Invalid IP or Subnet format."
    else
      match ipaddrParse ip with
      | none => some "Invalid subnet mask."
      | some (IPAddr.v4 _) => checkIpAndSubnetV4 ip cidr
      | some (IPAddr.v6 groups) => checkIpAndSubnetV6 ip groups cidr

/-! ## Lemmas: characters and decimal rendering -/

theorem digit_toNat {c : Char} (h : isDigitChar c = true) :
    48 ≤ c.toNat ∧ c.toNat ≤ 57 := by
  simpa [isDigitChar] using h

theorem digit_ne_of_toNat {c d : Char} (h : isDigitChar c = true)
    (hd : ¬ (48 ≤ d.toNat ∧ d.toNat ≤ 57)) : c ≠ d := by
  intro he
  exact hd (he ▸ digit_toNat h)

theorem digit_not_ws {c : Char} (h : isDigitChar c = true) : isWSChar c = false := by
  have hb := digit_toNat h
  simp only [isWSChar, decide_eq_false_iff_not]
  rintro (rfl | rfl | rfl | rfl | h2 | h2) <;> simp_all

theorem digitVal_digitChar {d : Nat} (h : d < 10) : digitVal (digitChar d) = d := by
  interval_cases d <;> rfl

theorem isDigitChar_digitChar {d : Nat} (h : d < 10) : isDigitChar (digitChar d) = true := by
  interval_cases d <;> rfl

theorem natToStrAux_ne_nil (fuel n : Nat) (h : 0 < fuel) : natToStrAux fuel n ≠ [] := by
  cases fuel with
  | zero => omega
  | succ f =>
    unfold natToStrAux
    split
    · simp
    · simp

theorem natToStr_ne_nil (n : Nat) : natToStr n ≠ [] :=
  natToStrAux_ne_nil _ _ (by omega)

theorem natToStrAux_digits :
    ∀ fuel n c, c ∈ natToStrAux fuel n → isDigitChar c = true := by
  intro fuel
  induction fuel with
  | zero => intro n c h; simp [natToStrAux] at h
  | succ f ih =>
    intro n c h
    unfold natToStrAux at h
    split at h
    · next hn =>
      simp only [List.mem_singleton] at h
      exact h ▸ isDigitChar_digitChar hn
    · next hn =>
      rw [List.mem_append, List.mem_singleton] at h
      rcases h with h | h
      · exact ih _ _ h
      · exact h ▸ isDigitChar_digitChar (Nat.mod_lt _ (by omega))

theorem natToStr_digits {n : Nat} {c : Char} (h : c ∈ natToStr n) : isDigitChar c = true :=
  natToStrAux_digits _ _ _ h

theorem digitsValAux_append (a : Nat) (xs ys : List Char) :
    digitsValAux a (xs ++ ys) = digitsValAux (digitsValAux a xs) ys := by
  induction xs generalizing a with
  | nil => rfl
  | cons c rest ih =>
    show digitsValAux (a * 10 + digitVal c) (rest ++ ys) = _
    rw [ih]
    rfl

theorem digitsValAux_natToStrAux :
    ∀ fuel n a, n < fuel →
      digitsValAux a (natToStrAux fuel n) = a * 10 ^ (natToStrAux fuel n).length + n := by
  intro fuel
  induction fuel with
  | zero => intro n a h; omega
  | succ f ih =>
    intro n a h
    unfold natToStrAux
    split
    · next hn =>
      show digitsValAux (a * 10 + digitVal (digitChar n)) [] =
        a * 10 ^ ([digitChar n]).length + n
      rw [digitVal_digitChar hn]
      show a * 10 + n = a * 10 ^ 1 + n
      rw [pow_one]
    · next hn =>
      have hrec : n / 10 < f := by omega
      rw [digitsValAux_append, ih _ a hrec]
      show (a * 10 ^ (natToStrAux f (n / 10)).length + n / 10) * 10 +
          digitVal (digitChar (n % 10)) =
        a * 10 ^ (natToStrAux f (n / 10) ++ [digitChar (n % 10)]).length + n
      rw [digitVal_digitChar (show n % 10 < 10 by omega), List.length_append,
        List.length_singleton, pow_succ, ← mul_assoc]
      generalize a * 10 ^ (natToStrAux f (n / 10)).length = m
      omega

theorem digitsVal_natToStr (n : Nat) : digitsVal (natToStr n) = n := by
  have h := digitsValAux_natToStrAux (n + 1) n 0 (by omega)
  simpa [digitsVal, natToStr] using h

theorem takeWhile_all {p : Char → Bool} {cs : List Char} (h : ∀ c ∈ cs, p c = true) :
    cs.takeWhile p = cs := List.takeWhile_eq_self_iff.mpr h

theorem dropWhile_all {p : Char → Bool} :
    ∀ {cs : List Char}, (∀ c ∈ cs, p c = true) → cs.dropWhile p = [] := by
  intro cs
  induction cs with
  | nil => intro _; rfl
  | cons c rest ih =>
    intro h
    rw [List.dropWhile_cons, if_pos (h c (by simp))]
    exact ih (fun x hx => h x (by simp [hx]))

theorem dropWhile_no {p : Char → Bool} {cs : List Char} (h : ∀ c ∈ cs, p c = false) :
    cs.dropWhile p = cs := by
  cases cs with
  | nil => rfl
  | cons c rest => simp [List.dropWhile_cons, h c (by simp)]

theorem trimList_id {cs : List Char} (h : ∀ c ∈ cs, isWSChar c = false) :
    trimList cs = cs := by
  unfold trimList
  rw [dropWhile_no h, dropWhile_no (fun c hc => h c (by simpa using hc)),
    List.reverse_reverse]

/-! ## Lemmas: integers rendered as strings -/

theorem intToStr_nonneg {n : Int} (h : 0 ≤ n) : intToStr n = natToStr n.toNat := by
  rw [intToStr, if_neg (by omega)]

theorem intToStr_neg {n : Int} (h : n < 0) : intToStr n = '-' :: natToStr (-n).toNat := by
  rw [intToStr, if_pos h]

theorem intToStr_chars {n : Int} {c : Char} (h : c ∈ intToStr n) :
    isDigitChar c = true ∨ c = '-' := by
  unfold intToStr at h
  split at h
  · rcases List.mem_cons.mp h with rfl | h2
    · exact Or.inr rfl
    · exact Or.inl (natToStr_digits h2)
  · exact Or.inl (natToStr_digits h)

theorem intToStr_no_ws (n : Int) : ∀ c ∈ intToStr n, isWSChar c = false := by
  intro c h
  rcases intToStr_chars h with hd | he
  · exact digit_not_ws hd
  · exact he ▸ (by decide)

theorem intToStr_no_dot (n : Int) : ('.' : Char) ∉ intToStr n := by
  intro h
  rcases intToStr_chars h with hd | he
  · exact absurd (digit_toNat hd) (by decide)
  · exact absurd he (by decide)

theorem trimList_intToStr (n : Int) : trimList (intToStr n) = intToStr n :=
  trimList_id (intToStr_no_ws n)

theorem parseDigits_natToStr (m : Nat) : parseDigits (natToStr m) = some m := by
  simp only [parseDigits]
  rw [takeWhile_all (fun c hc => natToStr_digits hc)]
  rw [if_neg (natToStr_ne_nil m), digitsVal_natToStr]

theorem jsParseInt10_intToStr (n : Int) : jsParseInt10 (intToStr n) = some n := by
  rcases lt_or_le n 0 with h | h
  · rw [intToStr_neg h]
    obtain ⟨c, rest, hcr⟩ : ∃ c rest, natToStr (-n).toNat = c :: rest := by
      cases hnt : natToStr (-n).toNat with
      | nil => exact absurd hnt (natToStr_ne_nil _)
      | cons c r => exact ⟨c, r, rfl⟩
    simp only [jsParseInt10, if_pos rfl]
    rw [parseDigits_natToStr]
    simp only [Option.bind_some, Option.map_some', Option.bind_eq_bind, Option.some_bind,
      Option.pure_def, Option.map_eq_map, if_true]
    simp
    omega
  · rw [intToStr_nonneg h]
    obtain ⟨c, rest, hcr⟩ : ∃ c rest, natToStr n.toNat = c :: rest := by
      cases hnt : natToStr n.toNat with
      | nil => exact absurd hnt (natToStr_ne_nil _)
      | cons c r => exact ⟨c, r, rfl⟩
    have hc : isDigitChar c = true :=
      natToStr_digits (n := n.toNat) (by rw [hcr]; exact List.mem_cons_self _ _)
    rw [hcr]
    simp only [jsParseInt10]
    rw [if_neg (digit_ne_of_toNat hc (by decide)),
      if_neg (digit_ne_of_toNat hc (by decide)), ← hcr, parseDigits_natToStr]
    simp
    omega

theorem stripSign_id {cs : List Char} (h : ∀ c ∈ cs, isDigitChar c = true) :
    stripSign cs = cs := by
  cases cs with
  | nil => rfl
  | cons c r =>
    have hc := h c (List.mem_cons_self _ _)
    show (if c = '+' ∨ c = '-' then r else c :: r) = c :: r
    rw [if_neg]
    rintro (rfl | rfl) <;> exact absurd (digit_toNat hc) (by decide)

theorem isHexPrefixed_digits {cs : List Char} (h : ∀ c ∈ cs, isDigitChar c = true) :
    isHexPrefixed cs = false := by
  match cs with
  | [] => rfl
  | [a] => rfl
  | a :: b :: t =>
    have hb := h b (by simp)
    show (decide (a = '0') && decide (b = 'x' ∨ b = 'X')) = false
    have hbx : decide (b = 'x' ∨ b = 'X') = false := by
      rw [decide_eq_false_iff_not]
      rintro (rfl | rfl) <;> exact absurd (digit_toNat hb) (by decide)
    rw [hbx, Bool.and_false]

theorem isHexPrefixed_dash (xs : List Char) : isHexPrefixed ('-' :: xs) = false := by
  cases xs with
  | nil => rfl
  | cons b t =>
    show (decide ((('-') : Char) = '0') && decide (b = 'x' ∨ b = 'X')) = false
    rw [show decide ((('-') : Char) = '0') = false from by decide, Bool.false_and]

theorem isUnsignedDecimal_digits {cs : List Char} (hne : cs ≠ [])
    (h : ∀ c ∈ cs, isDigitChar c = true) : isUnsignedDecimal cs = true := by
  simp only [isUnsignedDecimal]
  rw [dropWhile_all h, takeWhile_all h]
  simp [hne]

theorem jsIsNumericTrimmed_digits {cs : List Char} (hne : cs ≠ [])
    (h : ∀ c ∈ cs, isDigitChar c = true) : jsIsNumericTrimmed cs = true := by
  simp only [jsIsNumericTrimmed]
  rw [if_neg hne, isHexPrefixed_digits h]
  simp only [Bool.false_eq_true, if_false]
  rw [stripSign_id h, isUnsignedDecimal_digits hne h, Bool.or_true]

theorem jsIsNumericTrimmed_dashDigits {cs : List Char} (hne : cs ≠ [])
    (h : ∀ c ∈ cs, isDigitChar c = true) :
    jsIsNumericTrimmed ('-' :: cs) = true := by
  simp only [jsIsNumericTrimmed]
  rw [if_neg (by simp), isHexPrefixed_dash]
  simp only [Bool.false_eq_true, if_false]
  have hs : stripSign ('-' :: cs) = cs := by
    show (if ('-' : Char) = '+' ∨ ('-' : Char) = '-' then cs else '-' :: cs) = cs
    rw [if_pos (Or.inr rfl)]
  rw [hs, isUnsignedDecimal_digits hne h, Bool.or_true]

theorem jsIsNumericTrimmed_intToStr (n : Int) : jsIsNumericTrimmed (intToStr n) = true := by
  rcases lt_or_le n 0 with h | h
  · rw [intToStr_neg h]
    exact jsIsNumericTrimmed_dashDigits (natToStr_ne_nil _) (fun c hc => natToStr_digits hc)
  · rw [intToStr_nonneg h]
    exact jsIsNumericTrimmed_digits (natToStr_ne_nil _) (fun c hc => natToStr_digits hc)

/-! ## Lemmas: splitting and joining -/

theorem splitSep_cons_eq {sep : Char} {rest p : List Char} {ps : List (List Char)}
    (c : Char) (h : splitSep sep rest = p :: ps) :
    splitSep sep (c :: rest) = if c = sep then [] :: p :: ps else (c :: p) :: ps := by
  show (match splitSep sep rest with
    | [] => [[c]]
    | p :: ps => if c = sep then [] :: p :: ps else (c :: p) :: ps) = _
  rw [h]

theorem splitSep_ne_nil (sep : Char) (cs : List Char) : splitSep sep cs ≠ [] := by
  induction cs with
  | nil => simp [splitSep]
  | cons c rest ih =>
    cases h : splitSep sep rest with
    | nil => exact absurd h ih
    | cons p ps =>
      rw [splitSep_cons_eq c h]
      split <;> simp

theorem splitSep_no_sep {sep : Char} :
    ∀ {cs : List Char}, sep ∉ cs → splitSep sep cs = [cs] := by
  intro cs
  induction cs with
  | nil => intro _; rfl
  | cons c rest ih =>
    intro h
    have hcr : sep ∉ rest := fun hm => h (List.mem_cons_of_mem _ hm)
    have hc : c ≠ sep := fun e => h (List.mem_cons.mpr (Or.inl e.symm))
    rw [splitSep_cons_eq c (ih hcr), if_neg hc]

theorem splitSep_cons_sep (sep : Char) (cs : List Char) :
    splitSep sep (sep :: cs) = [] :: splitSep sep cs := by
  cases h : splitSep sep cs with
  | nil => exact absurd h (splitSep_ne_nil sep cs)
  | cons p ps => rw [splitSep_cons_eq sep h, if_pos rfl]

theorem splitSep_append {sep : Char} :
    ∀ {xs : List Char} (ys : List Char), sep ∉ xs →
      splitSep sep (xs ++ sep :: ys) = xs :: splitSep sep ys := by
  intro xs
  induction xs with
  | nil => intro ys _; exact splitSep_cons_sep sep ys
  | cons x xt ih =>
    intro ys h
    have hx : x ≠ sep := fun e => h (List.mem_cons.mpr (Or.inl e.symm))
    have ht : sep ∉ xt := fun hm => h (List.mem_cons_of_mem _ hm)
    rw [List.cons_append, splitSep_cons_eq x (ih ys ht), if_neg hx]

theorem joinSep_splitSep (sep : Char) :
    ∀ cs : List Char, joinSep sep (splitSep sep cs) = cs := by
  intro cs
  induction cs with
  | nil => rfl
  | cons c rest ih =>
    rcases hsp : splitSep sep rest with _ | ⟨p, ps⟩
    · exact absurd hsp (splitSep_ne_nil sep rest)
    · have ih2 : joinSep sep (p :: ps) = rest := by rw [← hsp]; exact ih
      rw [splitSep_cons_eq c hsp]
      by_cases hc : c = sep
      · rw [if_pos hc]
        show sep :: joinSep sep (p :: ps) = c :: rest
        rw [ih2, hc]
      · rw [if_neg hc]
        cases ps with
        | nil =>
          show c :: p = c :: rest
          rw [show p = rest from ih2]
        | cons q qs =>
          show (c :: p) ++ sep :: joinSep sep (q :: qs) = c :: rest
          exact congrArg (List.cons c) ih2

theorem mem_joinSep {sep c : Char} :
    ∀ {parts : List (List Char)}, c ∈ joinSep sep parts →
      c = sep ∨ ∃ p ∈ parts, c ∈ p := by
  intro parts
  induction parts with
  | nil => intro h; simp [joinSep] at h
  | cons p ps ih =>
    intro h
    cases ps with
    | nil => exact Or.inr ⟨p, by simp, h⟩
    | cons q qs =>
      rw [show joinSep sep (p :: q :: qs) = p ++ sep :: joinSep sep (q :: qs) from rfl,
        List.mem_append] at h
      rcases h with h | h
      · exact Or.inr ⟨p, by simp, h⟩
      · rcases List.mem_cons.mp h with rfl | h2
        · exact Or.inl rfl
        · rcases ih h2 with h3 | ⟨r, hr, hcr⟩
          · exact Or.inl h3
          · exact Or.inr ⟨r, by simp [hr], hcr⟩

theorem sep_mem_of_splitSep {sep : Char} {cs : List Char} {p q : List Char}
    {r : List (List Char)} (h : splitSep sep cs = p :: q :: r) : sep ∈ cs := by
  by_contra hn
  rw [splitSep_no_sep hn] at h
  simp at h

theorem splitLast_cons_eq {sep : Char} {rest : List Char} (c : Char) :
    splitLast sep (c :: rest) =
      match splitLast sep rest with
      | some (l, r) => some (c :: l, r)
      | none => if c = sep then some ([], rest) else none := rfl

theorem splitLast_no_sep {sep : Char} :
    ∀ {cs : List Char}, sep ∉ cs → splitLast sep cs = none := by
  intro cs
  induction cs with
  | nil => intro _; rfl
  | cons c rest ih =>
    intro h
    rw [splitLast_cons_eq, ih (fun hm => h (List.mem_cons_of_mem _ hm))]
    show (if c = sep then some ([], rest) else none) = none
    exact if_neg (fun e => h (List.mem_cons.mpr (Or.inl e.symm)))

theorem splitLast_append {sep : Char} :
    ∀ {xs ys : List Char}, sep ∉ ys →
      splitLast sep (xs ++ sep :: ys) = some (xs, ys) := by
  intro xs
  induction xs with
  | nil =>
    intro ys h
    show splitLast sep (sep :: ys) = some ([], ys)
    rw [splitLast_cons_eq, splitLast_no_sep h]
    show (if sep = sep then some ([], ys) else none) = some ([], ys)
    exact if_pos rfl
  | cons x xt ih =>
    intro ys h
    show splitLast sep (x :: (xt ++ sep :: ys)) = some (x :: xt, ys)
    rw [splitLast_cons_eq, ih h]

/-! ## Lemmas: address parsing and version detection -/

theorem parseDecPart_natToStr (m : Nat) : parseDecPart (natToStr m) = some m := by
  unfold parseDecPart
  rw [if_pos, digitsVal_natToStr]
  exact ⟨natToStr_ne_nil m, List.all_eq_true.mpr (fun c hc => natToStr_digits hc)⟩

theorem parseDecPart_digits {cs : List Char} {v : Nat} (h : parseDecPart cs = some v) :
    cs ≠ [] ∧ ∀ c ∈ cs, isDigitChar c = true := by
  unfold parseDecPart at h
  split at h
  · next hcond => exact ⟨hcond.1, fun c hc => List.all_eq_true.mp hcond.2 c hc⟩
  · exact absurd h (by simp)

theorem fourPart_split {cs : List Char} (h : ipv4FourPartShape cs = true) :
    ∃ a b c d, splitSep '.' cs = [a, b, c, d] := by
  unfold ipv4FourPartShape at h
  split at h
  · next a b c d heq => exact ⟨a, b, c, d, heq⟩
  · exact absurd h (by simp)

theorem ipv6ParseData_of_mem {cs : List Char} {c0 : Char} (hm : c0 ∈ cs)
    (hc : (isHexDigitChar c0 || decide (c0 = ':')) = false) : ipv6ParseData cs = none := by
  have hall : cs.all (fun c => isHexDigitChar c || decide (c = ':')) = false := by
    by_contra hne
    have htr : cs.all (fun c => isHexDigitChar c || decide (c = ':')) = true := by
      revert hne
      cases cs.all (fun c => isHexDigitChar c || decide (c = ':')) <;> simp
    have := List.all_eq_true.mp htr c0 hm
    rw [hc] at this
    exact absurd this (by simp)
  unfold ipv6ParseData
  rw [hall, if_pos rfl]

theorem ipv6ParseData_dot {cs : List Char} (hm : ('.' : Char) ∈ cs) :
    ipv6ParseData cs = none :=
  ipv6ParseData_of_mem hm (by decide)

theorem ipv4ParseData_no_dot {cs : List Char} (h : ('.' : Char) ∉ cs) :
    ipv4ParseData cs = none := by
  unfold ipv4ParseData
  rw [splitSep_no_sep h]

theorem subnetDottedCheck_intToStr (n : Int) (v : String) :
    subnetDottedCheck (intToStr n) v = none := by
  unfold subnetDottedCheck
  split
  · rw [ipv4ParseData_no_dot (intToStr_no_dot n)]
  · rfl

theorem subnetDottedCheck_v6 (ss : List Char) : subnetDottedCheck ss "ipv6" = none := rfl

theorem getIpVersion_v6 {ip : String} {g : List Nat} (h : ipv6ParseData ip.data = some g) :
    getIpVersion ip = some "ipv6" := by
  unfold getIpVersion ipaddrParse
  rw [h]
  rfl

theorem ipaddrParse_v4 {ip : String} {o : List Nat} (h6 : ipv6ParseData ip.data = none)
    (h4 : ipv4ParseData ip.data = some o) : ipaddrParse ip = some (IPAddr.v4 o) := by
  unfold ipaddrParse
  rw [h6, h4]
  rfl

theorem strict_parts {cs : List Char} (h : ipv4IsValidFourPartDecimal cs = true) :
    (ipv4ParseData cs).isSome = true ∧ ipv4FourPartShape cs = true := by
  unfold ipv4IsValidFourPartDecimal at h
  simpa using h

theorem strict_isSome {cs : List Char} (h : ipv4IsValidFourPartDecimal cs = true) :
    (ipv4ParseData cs).isSome = true := (strict_parts h).1

theorem strict_shape {cs : List Char} (h : ipv4IsValidFourPartDecimal cs = true) :
    ipv4FourPartShape cs = true := (strict_parts h).2

theorem strict_dot {cs : List Char} (h : ipv4IsValidFourPartDecimal cs = true) :
    ('.' : Char) ∈ cs := by
  obtain ⟨a, b, c, d, hsp⟩ := fourPart_split (strict_shape h)
  exact sep_mem_of_splitSep hsp

theorem getIpVersion_strict {ip : String} (h : ipv4IsValidFourPartDecimal ip.data = true) :
    getIpVersion ip = some "ipv4" := by
  obtain ⟨o, ho⟩ := Option.isSome_iff_exists.mp (strict_isSome h)
  unfold getIpVersion
  rw [ipaddrParse_v4 (ipv6ParseData_dot (strict_dot h)) ho]
  rfl

theorem validateIp_cases {ip : String} (h : validateIp ip = true) :
    (∃ g, ipv6ParseData ip.data = some g) ∨
      ipv6ParseData ip.data = none ∧ ipv4IsValidFourPartDecimal ip.data = true := by
  cases h6 : ipv6ParseData ip.data with
  | some g => exact Or.inl ⟨g, rfl⟩
  | none =>
    right
    refine ⟨rfl, ?_⟩
    unfold validateIp at h
    rw [h6] at h
    simpa using h

theorem validateIp_of_v6 {ip : String} {g : List Nat} (h : ipv6ParseData ip.data = some g) :
    validateIp ip = true := by
  unfold validateIp
  rw [h]
  rfl

theorem validateIp_of_strict {ip : String} (h : ipv4IsValidFourPartDecimal ip.data = true) :
    validateIp ip = true := by
  unfold validateIp
  rw [h]
  split <;> rfl

theorem validateIp_isSome {ip : String} (h : validateIp ip = true) :
    ∃ a, ipaddrParse ip = some a := by
  rcases validateIp_cases h with ⟨g, hg⟩ | ⟨h6, h4⟩
  · refine ⟨IPAddr.v6 g, ?_⟩
    unfold ipaddrParse
    rw [hg]
  · obtain ⟨o, ho⟩ := Option.isSome_iff_exists.mp (strict_isSome h4)
    exact ⟨IPAddr.v4 o, ipaddrParse_v4 h6 ho⟩

/-! ## Lemmas: the subnet normalizer on integer inputs -/

theorem convertSubnetToCidrBody_int (n : Int) (v : String) :
    convertSubnetToCidrBody (intToStr n) v =
      if 0 ≤ n ∧ n ≤ (if v = "ipv6" then (128 : Int) else 32) then some n.toNat
      else none := by
  unfold convertSubnetToCidrBody
  rw [jsIsNumericTrimmed_intToStr, if_pos rfl, jsParseInt10_intToStr]
  show (if 0 ≤ n ∧ n ≤ (if v = "ipv6" then (128 : Int) else 32) then some n.toNat
        else subnetDottedCheck (intToStr n) v) = _
  by_cases hc : 0 ≤ n ∧ n ≤ (if v = "ipv6" then (128 : Int) else 32)
  · rw [if_pos hc, if_pos hc]
  · rw [if_neg hc, if_neg hc, subnetDottedCheck_intToStr]

theorem convertSubnetToCidr_num (n : Int) (hn : n ≠ 0) (ip : String) :
    convertSubnetToCidr (JSValue.num n) ip =
      if 0 ≤ n ∧ n ≤ (if (getIpVersion ip).getD "ipv4" = "ipv6" then (128 : Int) else 32)
      then some n.toNat else none := by
  unfold convertSubnetToCidr
  rw [show jsFalsy (JSValue.num n) = false from by simp [jsFalsy, hn]]
  show convertSubnetToCidrBody (trimList (intToStr n)) _ = _
  rw [trimList_intToStr, convertSubnetToCidrBody_int]

theorem convertSubnetToCidr_zero (ip : String) :
    convertSubnetToCidr (JSValue.num 0) ip = none := rfl

theorem prefixLengthFromSubnetMask_le {v p : Nat}
    (h : prefixLengthFromSubnetMask v = some p) : p ≤ 32 := by
  have hm := List.mem_of_find?_eq_some h
  rw [List.mem_range] at hm
  omega

theorem subnetDottedCheck_eq_some {ss : List Char} {v : String} {c : Nat}
    (h : subnetDottedCheck ss v = some c) :
    v = "ipv4" ∧ ∃ o, ipv4ParseData ss = some o ∧
      prefixLengthFromSubnetMask (octetsToNat o) = some c := by
  unfold subnetDottedCheck at h
  split at h
  · next hv =>
    cases ho : ipv4ParseData ss with
    | none => rw [ho] at h; exact absurd h (by simp)
    | some o =>
      rw [ho] at h
      exact ⟨hv, o, rfl, h⟩
  · exact absurd h (by simp)

theorem convertSubnetToCidrBody_le {ss : List Char} {v : String} {c : Nat}
    (h : convertSubnetToCidrBody ss v = some c) :
    (v = "ipv6" ∧ c ≤ 128) ∨ (v ≠ "ipv6" ∧ c ≤ 32) := by
  unfold convertSubnetToCidrBody at h
  by_cases hv : v = "ipv6"
  · have hmax : (if v = "ipv6" then (128 : Int) else 32) = 128 := if_pos hv
    left
    refine ⟨hv, ?_⟩
    rw [hmax] at h
    split at h
    · next cidr heq =>
      split at h
      · next hrange =>
        have hc : cidr.toNat = c := by injection h
        omega
      · obtain ⟨hv4, _⟩ := subnetDottedCheck_eq_some h
        rw [hv4] at hv
        exact absurd hv (by decide)
    · obtain ⟨hv4, _⟩ := subnetDottedCheck_eq_some h
      rw [hv4] at hv
      exact absurd hv (by decide)
  · have hmax : (if v = "ipv6" then (128 : Int) else 32) = 32 := if_neg hv
    right
    refine ⟨hv, ?_⟩
    rw [hmax] at h
    split at h
    · next cidr heq =>
      split at h
      · next hrange =>
        have hc : cidr.toNat = c := by injection h
        omega
      · obtain ⟨_, o, _, hp⟩ := subnetDottedCheck_eq_some h
        exact prefixLengthFromSubnetMask_le hp
    · obtain ⟨_, o, _, hp⟩ := subnetDottedCheck_eq_some h
      exact prefixLengthFromSubnetMask_le hp

theorem convertSubnetToCidr_le {subnet : JSValue} {ip : String} {c : Nat}
    (h : convertSubnetToCidr subnet ip = some c) :
    ((getIpVersion ip).getD "ipv4" = "ipv6" ∧ c ≤ 128) ∨
      ((getIpVersion ip).getD "ipv4" ≠ "ipv6" ∧ c ≤ 32) := by
  unfold convertSubnetToCidr at h
  split at h
  · exact absurd h (by simp)
  · exact convertSubnetToCidrBody_le h

/-! ## Lemmas: byte-level values, masking and rendering -/

theorem ipv4ParseData_bounds {cs : List Char} {o : List Nat} (h : ipv4ParseData cs = some o) :
    ∃ a b c d, o = [a, b, c, d] ∧ a < 256 ∧ b < 256 ∧ c < 256 ∧ d < 256 := by
  unfold ipv4ParseData at h
  repeat' split at h
  all_goals first
    | exact Option.noConfusion h
    | (refine ⟨_, _, _, _, (Option.some.inj h).symm, ?_, ?_, ?_, ?_⟩ <;> omega)

theorem octetsToNat_eq (a b c d : Nat) :
    octetsToNat [a, b, c, d] = ((a * 256 + b) * 256 + c) * 256 + d := by
  simp only [octetsToNat, List.foldl_cons, List.foldl_nil, Nat.zero_mul, Nat.zero_add]

theorem octetsToNat_lt {a b c d : Nat} (ha : a < 256) (hb : b < 256) (hc : c < 256)
    (hd : d < 256) : octetsToNat [a, b, c, d] < 4294967296 := by
  rw [octetsToNat_eq]
  omega

theorem octetsToNat_natToOctets {v : Nat} (h : v < 4294967296) :
    octetsToNat (natToOctets v) = v := by
  unfold natToOctets
  rw [octetsToNat_eq]
  omega

theorem maskBits_le (v p w : Nat) : maskBits v p w ≤ v := Nat.div_mul_le_self v _

theorem maskBits_lt {v : Nat} (p w : Nat) (h : v < 4294967296) :
    maskBits v p w < 4294967296 := Nat.lt_of_le_of_lt (maskBits_le v p w) h

theorem pow_hosts_split (p : Nat) (hp : p ≤ 32) :
    (2 : Nat) ^ (32 - (32 - p)) * 2 ^ (32 - p) = 4294967296 := by
  rw [← pow_add, show 32 - (32 - p) + (32 - p) = 32 from by omega]
  norm_num

theorem maskBits_add_host_lt {v : Nat} (p : Nat) (hp : p ≤ 32) (h : v < 4294967296) :
    maskBits v p 32 + (2 ^ (32 - p) - 1) < 4294967296 := by
  unfold maskBits
  have hpos : 0 < (2 : Nat) ^ (32 - p) := Nat.pos_pow_of_pos _ (by omega)
  have hdiv : v / 2 ^ (32 - p) < 2 ^ (32 - (32 - p)) := by
    rw [Nat.div_lt_iff_lt_mul hpos]
    calc v < 4294967296 := h
    _ = 2 ^ (32 - (32 - p)) * 2 ^ (32 - p) := (pow_hosts_split p hp).symm
  have h5 : (v / 2 ^ (32 - p) + 1) * 2 ^ (32 - p) ≤
      2 ^ (32 - (32 - p)) * 2 ^ (32 - p) :=
    Nat.mul_le_mul_right _ (by omega)
  have h6 : (v / 2 ^ (32 - p) + 1) * 2 ^ (32 - p) =
      v / 2 ^ (32 - p) * 2 ^ (32 - p) + 2 ^ (32 - p) := by
    rw [Nat.add_mul, one_mul]
  calc v / 2 ^ (32 - p) * 2 ^ (32 - p) + (2 ^ (32 - p) - 1)
      < (v / 2 ^ (32 - p) + 1) * 2 ^ (32 - p) := by rw [h6]; omega
  _ ≤ 2 ^ (32 - (32 - p)) * 2 ^ (32 - p) := h5
  _ = 4294967296 := pow_hosts_split p hp

theorem network_ne_broadcast {v p : Nat} (hp : p ≤ 30) :
    maskBits v p 32 ≠ maskBits v p 32 + (2 ^ (32 - p) - 1) := by
  have h4 : (2 : Nat) ^ 2 ≤ 2 ^ (32 - p) := Nat.pow_le_pow_right (by omega) (by omega)
  omega

theorem natToOctets_bounds (v : Nat) : ∀ x ∈ natToOctets v, x < 256 := by
  unfold natToOctets
  intro x hx
  simp only [List.mem_cons, List.mem_singleton, List.not_mem_nil, or_false] at hx
  rcases hx with rfl | rfl | rfl | rfl <;> omega

theorem dot_not_mem_natToStr (m : Nat) : ('.' : Char) ∉ natToStr m := fun hm =>
  absurd (digit_toNat (natToStr_digits hm)) (by decide)

theorem slash_not_mem_natToStr (m : Nat) : ('/' : Char) ∉ natToStr m := fun hm =>
  absurd (digit_toNat (natToStr_digits hm)) (by decide)

theorem v4ToString_eq (a b c d : Nat) :
    v4ToString [a, b, c, d] =
      natToStr a ++ '.' :: (natToStr b ++ '.' :: (natToStr c ++ '.' :: natToStr d)) := rfl

theorem splitSep_v4ToString (a b c d : Nat) :
    splitSep '.' (v4ToString [a, b, c, d]) =
      [natToStr a, natToStr b, natToStr c, natToStr d] := by
  rw [v4ToString_eq, splitSep_append _ (dot_not_mem_natToStr a),
    splitSep_append _ (dot_not_mem_natToStr b), splitSep_append _ (dot_not_mem_natToStr c),
    splitSep_no_sep (dot_not_mem_natToStr d)]

theorem ipv4ParseData_v4ToString {a b c d : Nat} (ha : a ≤ 255) (hb : b ≤ 255)
    (hc : c ≤ 255) (hd : d ≤ 255) :
    ipv4ParseData (v4ToString [a, b, c, d]) = some [a, b, c, d] := by
  unfold ipv4ParseData
  rw [splitSep_v4ToString]
  show (match parseDecPart (natToStr a), parseDecPart (natToStr b),
      parseDecPart (natToStr c), parseDecPart (natToStr d) with
    | some x, some y, some z, some w =>
      if x ≤ 255 ∧ y ≤ 255 ∧ z ≤ 255 ∧ w ≤ 255 then some [x, y, z, w] else none
    | _, _, _, _ => none) = some [a, b, c, d]
  rw [parseDecPart_natToStr, parseDecPart_natToStr, parseDecPart_natToStr,
    parseDecPart_natToStr]
  show (if a ≤ 255 ∧ b ≤ 255 ∧ c ≤ 255 ∧ d ≤ 255 then some [a, b, c, d] else none) =
    some [a, b, c, d]
  rw [if_pos ⟨ha, hb, hc, hd⟩]

theorem ipv4ParseData_natToOctets (v : Nat) :
    ipv4ParseData (v4ToString (natToOctets v)) = some (natToOctets v) := by
  unfold natToOctets
  exact ipv4ParseData_v4ToString (by omega) (by omega) (by omega) (by omega)

theorem v4ToString_natToOctets_inj {v1 v2 : Nat} (h1 : v1 < 4294967296)
    (h2 : v2 < 4294967296)
    (he : v4ToString (natToOctets v1) = v4ToString (natToOctets v2)) : v1 = v2 := by
  have e1 := ipv4ParseData_natToOctets v1
  rw [he, ipv4ParseData_natToOctets v2] at e1
  have hov := congrArg octetsToNat (Option.some.inj e1)
  rw [octetsToNat_natToOctets h2, octetsToNat_natToOctets h1] at hov
  exact hov.symm

theorem parseCIDRv4_roundtrip {ipd : List Char} {o : List Nat} (c : Nat)
    (hip : ipv4ParseData ipd = some o) (hc : c ≤ 32) :
    parseCIDRv4 (ipd ++ '/' :: natToStr c) = some (o, c) := by
  have hne : ipd ≠ [] := by
    intro he
    rw [he, show ipv4ParseData ([] : List Char) = none from rfl] at hip
    exact absurd hip (by simp)
  unfold parseCIDRv4
  rw [splitLast_append (slash_not_mem_natToStr c)]
  show (if ipd ≠ [] ∧ natToStr c ≠ [] ∧ (natToStr c).all isDigitChar = true then
      match ipv4ParseData ipd with
      | some o => if digitsVal (natToStr c) ≤ 32 then some (o, digitsVal (natToStr c))
                  else none
      | none => none
    else none) = some (o, c)
  rw [if_pos ⟨hne, natToStr_ne_nil c,
    List.all_eq_true.mpr (fun x hx => natToStr_digits hx)⟩, hip]
  show (if digitsVal (natToStr c) ≤ 32 then some (o, digitsVal (natToStr c)) else none) =
    some (o, c)
  rw [digitsVal_natToStr, if_pos hc]

theorem networkAddressFromCIDR_of_parse {s : List Char} {o : List Nat} {p : Nat}
    (h : parseCIDRv4 s = some (o, p)) :
    networkAddressFromCIDR s = some (natToOctets (maskBits (octetsToNat o) p 32)) := by
  unfold networkAddressFromCIDR
  rw [h]

theorem broadcastAddressFromCIDR_of_parse {s : List Char} {o : List Nat} {p : Nat}
    (h : parseCIDRv4 s = some (o, p)) :
    broadcastAddressFromCIDR s =
      some (natToOctets (maskBits (octetsToNat o) p 32 + (2 ^ (32 - p) - 1))) := by
  unfold broadcastAddressFromCIDR
  rw [h]

/-! ## Lemmas: the normalizer by address family, and the host check -/

theorem convertSubnetToCidr_num_v4 {ip : String} (hver : getIpVersion ip = some "ipv4")
    {n : Int} (hn : n ≠ 0) :
    convertSubnetToCidr (JSValue.num n) ip =
      if 0 ≤ n ∧ n ≤ 32 then some n.toNat else none := by
  rw [convertSubnetToCidr_num n hn ip, hver,
    show ((some ("ipv4" : String)).getD "ipv4") = "ipv4" from rfl,
    show (if ("ipv4" : String) = "ipv6" then (128 : Int) else 32) = 32 from by decide]

theorem convertSubnetToCidr_num_v6 {ip : String} (hver : getIpVersion ip = some "ipv6")
    {n : Int} (hn : n ≠ 0) :
    convertSubnetToCidr (JSValue.num n) ip =
      if 0 ≤ n ∧ n ≤ 128 then some n.toNat else none := by
  rw [convertSubnetToCidr_num n hn ip, hver,
    show ((some ("ipv6" : String)).getD "ipv4") = "ipv6" from rfl,
    show (if ("ipv6" : String) = "ipv6" then (128 : Int) else 32) = 128 from by decide]

theorem convertSubnetToCidr_num_invalid {ip : String} (hver : getIpVersion ip = none)
    {n : Int} (hn : n ≠ 0) :
    convertSubnetToCidr (JSValue.num n) ip =
      if 0 ≤ n ∧ n ≤ 32 then some n.toNat else none := by
  rw [convertSubnetToCidr_num n hn ip, hver,
    show ((none : Option String).getD "ipv4") = "ipv4" from rfl,
    show (if ("ipv4" : String) = "ipv6" then (128 : Int) else 32) = 32 from by decide]

theorem convertSubnetToCidr_str {s : String} (ip : String) {v : String}
    (hver : (getIpVersion ip).getD "ipv4" = v) (hfalsy : jsFalsy (JSValue.str s) = false) :
    convertSubnetToCidr (JSValue.str s) ip = convertSubnetToCidrBody (trimList s.data) v := by
  unfold convertSubnetToCidr
  rw [hfalsy]
  show convertSubnetToCidrBody (trimList (jsToString (JSValue.str s)))
    ((getIpVersion ip).getD "ipv4") = _
  rw [hver]
  rfl

theorem checkIpAndSubnet_some {ip : String} {subnet : JSValue} {c : Nat}
    (hc : convertSubnetToCidr subnet ip = some c) :
    checkIpAndSubnet ip subnet =
      (if validateIp ip = false then some "Invalid IP or Subnet format."
       else
         match ipaddrParse ip with
         | none => some "Invalid subnet mask."
         | some (IPAddr.v4 _) => checkIpAndSubnetV4 ip c
         | some (IPAddr.v6 groups) => checkIpAndSubnetV6 ip groups c) := by
  unfold checkIpAndSubnet
  rw [hc]

theorem checkIpAndSubnet_v6_eq {ip : String} {subnet : JSValue} {c : Nat} {g : List Nat}
    (hg : ipv6ParseData ip.data = some g) (hc : convertSubnetToCidr subnet ip = some c) :
    checkIpAndSubnet ip subnet = checkIpAndSubnetV6 ip g c := by
  rw [checkIpAndSubnet_some hc, if_neg (by simp [validateIp_of_v6 hg])]
  have hp : ipaddrParse ip = some (IPAddr.v6 g) := by
    unfold ipaddrParse
    rw [hg]
  rw [hp]

theorem checkIpAndSubnet_v4_eq {ip : String} {subnet : JSValue} {c : Nat} {o : List Nat}
    (ho : ipv4ParseData ip.data = some o)
    (hstrict : ipv4IsValidFourPartDecimal ip.data = true)
    (hc : convertSubnetToCidr subnet ip = some c) :
    checkIpAndSubnet ip subnet = checkIpAndSubnetV4 ip c := by
  rw [checkIpAndSubnet_some hc, if_neg (by simp [validateIp_of_strict hstrict]),
    ipaddrParse_v4 (ipv6ParseData_dot (strict_dot hstrict)) ho]

theorem convertSubnetToCidrBody_numeric_small {ds : List Char} {m : Nat}
    (hds : jsIsNumericTrimmed ds = true) (hp : jsParseInt10 ds = some (m : Int))
    (hm : m ≤ 32) (v : String) : convertSubnetToCidrBody ds v = some m := by
  unfold convertSubnetToCidrBody
  rw [hds, if_pos rfl, hp]
  show (if (0 : Int) ≤ (m : Int) ∧ (m : Int) ≤ (if v = "ipv6" then (128 : Int) else 32)
      then some ((m : Int).toNat) else subnetDottedCheck ds v) = some m
  rw [if_pos ⟨Int.natCast_nonneg m, by split <;> omega⟩]
  simp

/-! ## The claims -/

/-- C10: `convertSubnetToCidr` (and hence `validateSubnet`) distinguishes
the number 0 from the string "0": for every reference address, the subnet
given as the numeric value 0 is rejected by the initial falsy-input check
(`convertSubnetToCidr` returns `none` and `validateSubnet` false), while
the subnet given as the string "0" normalizes to prefix length 0
(`validateSubnet` returns true). -/
theorem claim10_zero_number_vs_zero_string (ip : String) :
    convertSubnetToCidr (JSValue.num 0) ip = none ∧
      validateSubnet (JSValue.num 0) ip = false ∧
      convertSubnetToCidr (JSValue.str "0") ip = some 0 ∧
      validateSubnet (JSValue.str "0") ip = true := by
  have hzero : convertSubnetToCidr (JSValue.str "0") ip = some 0 := by
    rw [convertSubnetToCidr_str (s := "0") (v := (getIpVersion ip).getD "ipv4") ip rfl rfl]
    exact convertSubnetToCidrBody_numeric_small (by decide) (by decide) (by omega) _
  refine ⟨rfl, rfl, hzero, ?_⟩
  unfold validateSubnet
  rw [hzero]
  rfl

/-- C4: for every string, strict validity (`validateIp`) implies lenient
validity (`getIpVersion` non-null); the converse fails at the IPv4
shorthand "192.168.1", whose version is detected as ipv4 although
`validateIp` rejects it. -/
theorem claim4_strict_implies_lenient :
    (∀ s : String, validateIp s = true → getIpVersion s ≠ none) ∧
      getIpVersion ("192.168.1") = some "ipv4" ∧
      validateIp ("192.168.1") = false := by
  refine ⟨?_, by decide, by decide⟩
  intro s hs
  obtain ⟨a, ha⟩ := validateIp_isSome hs
  unfold getIpVersion
  rw [ha]
  simp

/-- C4 witness: the implication instantiated at "::1", a strictly valid
address whose version detection indeed succeeds. -/
theorem claim4_witness : getIpVersion ("::1") ≠ none :=
  claim4_strict_implies_lenient.1 ("::1") (by decide)

/-- C7: `isPublicIp` is false for every string failing `validateIp`, and on
validating strings it is true exactly when the parsed address's range
classification is "unicast"; concretely it accepts 8.8.8.8 and rejects the
three private examples and a non-address. -/
theorem claim7_isPublicIp_unicast :
    (∀ ip : String, validateIp ip = false → isPublicIp ip = false) ∧
      (∀ ip : String, ∀ a : IPAddr, validateIp ip = true → ipaddrParse ip = some a →
        (isPublicIp ip = true ↔ addrRange a = "unicast")) ∧
      isPublicIp ("8.8.8.8") = true ∧ isPublicIp ("192.168.1.1") = false ∧
      isPublicIp ("10.0.0.1") = false ∧ isPublicIp ("172.16.0.1") = false ∧
      isPublicIp ("not an ip") = false := by
  refine ⟨?_, ?_, by decide, by decide, by decide, by decide, by decide⟩
  · intro ip h
    unfold isPublicIp
    rw [h, if_pos rfl]
  · intro ip a hv hp
    unfold isPublicIp
    rw [if_neg (by simp [hv]), hp]
    show (addrRange a == "unicast") = true ↔ addrRange a = "unicast"
    exact beq_iff_eq

/-- C7 witness: the two universal parts instantiated at a failing string
and at a validating one. -/
theorem claim7_witness :
    isPublicIp ("256.1.2.3") = false ∧ (isPublicIp ("9.9.9.9") = true ↔
      addrRange (IPAddr.v4 [9, 9, 9, 9]) = "unicast") :=
  ⟨claim7_isPublicIp_unicast.1 ("256.1.2.3") (by decide),
   claim7_isPublicIp_unicast.2.1 ("9.9.9.9") (IPAddr.v4 [9, 9, 9, 9]) (by decide) (by decide)⟩

/-- C9: `isSameSubnet` returns false (and, being a total function of its
inputs, never raises) whenever the first or second address fails
`validateIp`, or the subnet fails to normalize against the first address's
family, or the two parsed addresses are of different families; concretely
a mixed IPv4/IPv6 comparison is false. -/
theorem claim9_isSameSubnet_failure_modes :
    (∀ ip1 ip2 : String, ∀ subnet : JSValue, validateIp ip1 = false →
        isSameSubnet ip1 ip2 subnet = false) ∧
      (∀ ip1 ip2 : String, ∀ subnet : JSValue, validateIp ip2 = false →
        isSameSubnet ip1 ip2 subnet = false) ∧
      (∀ ip1 ip2 : String, ∀ subnet : JSValue, convertSubnetToCidr subnet ip1 = none →
        isSameSubnet ip1 ip2 subnet = false) ∧
      (∀ ip1 ip2 : String, ∀ subnet : JSValue, ∀ a1 a2 : IPAddr,
        ipaddrParse ip1 = some a1 → ipaddrParse ip2 = some a2 → ipKind a1 ≠ ipKind a2 →
        isSameSubnet ip1 ip2 subnet = false) ∧
      isSameSubnet ("192.168.1.1") ("::1") (JSValue.num 24) = false := by
  refine ⟨?_, ?_, ?_, ?_, by decide⟩
  · intro ip1 ip2 subnet h
    unfold isSameSubnet
    cases hc : convertSubnetToCidr subnet ip1 with
    | none => rfl
    | some c =>
      show (if validateIp ip1 = false ∨ validateIp ip2 = false then false else _) = false
      rw [if_pos (Or.inl h)]
  · intro ip1 ip2 subnet h
    unfold isSameSubnet
    cases hc : convertSubnetToCidr subnet ip1 with
    | none => rfl
    | some c =>
      show (if validateIp ip1 = false ∨ validateIp ip2 = false then false else _) = false
      rw [if_pos (Or.inr h)]
  · intro ip1 ip2 subnet h
    unfold isSameSubnet
    rw [h]
  · intro ip1 ip2 subnet a1 a2 h1 h2 hk
    unfold isSameSubnet
    cases hc : convertSubnetToCidr subnet ip1 with
    | none => rfl
    | some c =>
      by_cases hv : validateIp ip1 = false ∨ validateIp ip2 = false
      · show (if validateIp ip1 = false ∨ validateIp ip2 = false then false else _) = false
        rw [if_pos hv]
      · show (if validateIp ip1 = false ∨ validateIp ip2 = false then false
              else match ipaddrParse ip1, ipaddrParse ip2 with
              | some addr1, some addr2 =>
                if ipKind addr1 ≠ ipKind addr2 then false else matchAddr addr1 addr2 c
              | _, _ => false) = false
        rw [if_neg hv, h1, h2]
        show (if ipKind a1 ≠ ipKind a2 then false else matchAddr a1 a2 c) = false
        rw [if_pos hk]

/-- C9 witness: the failure cases instantiated at concrete inputs. -/
theorem claim9_witness :
    isSameSubnet ("not an ip") ("10.0.0.1") (JSValue.num 24) = false ∧
      isSameSubnet ("10.0.0.1") ("not an ip") (JSValue.num 24) = false ∧
      isSameSubnet ("10.0.0.1") ("10.0.0.2") (JSValue.num 33) = false ∧
      isSameSubnet ("::1") ("10.0.0.1") (JSValue.num 24) = false :=
  ⟨claim9_isSameSubnet_failure_modes.1 ("not an ip") ("10.0.0.1") (JSValue.num 24) (by decide),
   claim9_isSameSubnet_failure_modes.2.1 ("10.0.0.1") ("not an ip") (JSValue.num 24) (by decide),
   claim9_isSameSubnet_failure_modes.2.2.1 ("10.0.0.1") ("10.0.0.2") (JSValue.num 33) (by decide),
   claim9_isSameSubnet_failure_modes.2.2.2.1 ("::1") ("10.0.0.1") (JSValue.num 24)
     (IPAddr.v6 [0, 0, 0, 0, 0, 0, 0, 1]) (IPAddr.v4 [10, 0, 0, 1]) (by decide) (by decide)
     (by decide)⟩

/-- C8: same-subnet membership is reflexive on valid inputs: for every
address accepted by `validateIp` and every subnet accepted by
`validateSubnet` against it, `isSameSubnet ip ip subnet` is true. -/
theorem claim8_isSameSubnet_reflexive (ip : String) (subnet : JSValue)
    (h1 : validateIp ip = true) (h2 : validateSubnet subnet ip = true) :
    isSameSubnet ip ip subnet = true := by
  obtain ⟨c, hc⟩ := Option.isSome_iff_exists.mp h2
  obtain ⟨a, ha⟩ := validateIp_isSome h1
  unfold isSameSubnet
  rw [hc]
  show (if validateIp ip = false ∨ validateIp ip = false then false
        else match ipaddrParse ip, ipaddrParse ip with
        | some addr1, some addr2 =>
          if ipKind addr1 ≠ ipKind addr2 then false else matchAddr addr1 addr2 c
        | _, _ => false) = true
  rw [if_neg (by simp [h1]), ha]
  show (if ipKind a ≠ ipKind a then false else matchAddr a a c) = true
  rw [if_neg (by simp)]
  cases a with
  | v4 o => simp [matchAddr]
  | v6 g => simp [matchAddr]

/-- C8 witness: reflexivity at a concrete valid address and subnet. -/
theorem claim8_witness : isSameSubnet ("192.168.1.1") ("192.168.1.1") (JSValue.num 24) = true :=
  claim8_isSameSubnet_reflexive ("192.168.1.1") (JSValue.num 24) (by decide) (by decide)

/-- C6: against every strictly valid IPv4 reference address, the
dotted-decimal mask 255.255.255.0 normalizes to prefix length 24 while the
non-contiguous mask 255.0.255.0 is rejected; `validateSubnet` agrees. -/
theorem claim6_dotted_decimal_masks (ip : String)
    (h : ipv4IsValidFourPartDecimal ip.data = true) :
    convertSubnetToCidr (JSValue.str "255.255.255.0") ip = some 24 ∧
      convertSubnetToCidr (JSValue.str "255.0.255.0") ip = none ∧
      validateSubnet (JSValue.str "255.255.255.0") ip = true ∧
      validateSubnet (JSValue.str "255.0.255.0") ip = false := by
  have hver : (getIpVersion ip).getD "ipv4" = "ipv4" := by
    rw [getIpVersion_strict h]
    rfl
  have h1 : convertSubnetToCidr (JSValue.str "255.255.255.0") ip = some 24 := by
    rw [convertSubnetToCidr_str (s := "255.255.255.0") ip hver (by decide)]
    decide
  have h2 : convertSubnetToCidr (JSValue.str "255.0.255.0") ip = none := by
    rw [convertSubnetToCidr_str (s := "255.0.255.0") ip hver (by decide)]
    decide
  refine ⟨h1, h2, ?_, ?_⟩
  · unfold validateSubnet
    rw [h1]
    rfl
  · unfold validateSubnet
    rw [h2]
    rfl

/-- C6 witness: the mask normalization at a concrete IPv4 reference. -/
theorem claim6_witness :
    convertSubnetToCidr (JSValue.str "255.255.255.0") ("10.0.0.1") = some 24 ∧
      convertSubnetToCidr (JSValue.str "255.0.255.0") ("10.0.0.1") = none :=
  ⟨(claim6_dotted_decimal_masks ("10.0.0.1") (by decide)).1,
   (claim6_dotted_decimal_masks ("10.0.0.1") (by decide)).2.1⟩

/-- C3 counterexample: the claim says a numeric subnet is accepted exactly
when its value lies in [0,32] when the reference is invalid, but the
numeric value 0 lies in that interval and is rejected by the falsy-input
check. -/
theorem claim3_counterexample :
    getIpVersion ("not an ip") = none ∧
      validateSubnet (JSValue.num 0) ("not an ip") = false := by
  exact ⟨by decide, rfl⟩

/-- C3 (amended): with an invalid reference address the IPv4 rule set is
applied — normalization behaves exactly as with an IPv4 reference — and a
numeric subnet is accepted exactly when its integer value lies in [1,32]
(the numeric value 0 being rejected by the falsy-input check); in
particular a numeric subnet of 64 normalizes to `none`, not 64. -/
theorem claim3_invalid_reference_ipv4_rules :
    (∀ ref : String, getIpVersion ref = none → ∀ subnet : JSValue,
        convertSubnetToCidr subnet ref = convertSubnetToCidr subnet ("192.168.1.1")) ∧
      (∀ ref : String, getIpVersion ref = none → ∀ n : Int,
        (validateSubnet (JSValue.num n) ref = true ↔ 1 ≤ n ∧ n ≤ 32)) ∧
      (∀ ref : String, getIpVersion ref = none →
        convertSubnetToCidr (JSValue.num 64) ref = none) := by
  have hv192 : getIpVersion ("192.168.1.1") = some "ipv4" := by decide
  refine ⟨?_, ?_, ?_⟩
  · intro ref h subnet
    unfold convertSubnetToCidr
    rw [h, hv192]
    rfl
  · intro ref h n
    by_cases hn : n = 0
    · subst hn
      constructor
      · intro hfalse
        rw [show validateSubnet (JSValue.num 0) ref = false from rfl] at hfalse
        exact absurd hfalse (by simp)
      · rintro ⟨h1, _⟩
        omega
    · unfold validateSubnet
      rw [convertSubnetToCidr_num_invalid h hn]
      constructor
      · intro ht
        split at ht
        · next hcond => omega
        · exact absurd ht (by simp)
      · intro hr
        rw [if_pos ⟨by omega, by omega⟩]
        rfl
  · intro ref h
    rw [convertSubnetToCidr_num_invalid h (by norm_num)]
    decide

/-- C3 witness: the amended behaviors at the concrete invalid reference
"not an ip". -/
theorem claim3_witness :
    convertSubnetToCidr (JSValue.num 24) ("not an ip") =
        convertSubnetToCidr (JSValue.num 24) ("192.168.1.1") ∧
      (validateSubnet (JSValue.num 24) ("not an ip") = true ↔
        1 ≤ (24 : Int) ∧ (24 : Int) ≤ 32) ∧
      convertSubnetToCidr (JSValue.num 64) ("not an ip") = none :=
  ⟨claim3_invalid_reference_ipv4_rules.1 ("not an ip") (by decide) (JSValue.num 24),
   claim3_invalid_reference_ipv4_rules.2.1 ("not an ip") (by decide) 24,
   claim3_invalid_reference_ipv4_rules.2.2 ("not an ip") (by decide)⟩

/-- C1 counterexample: the claim says `validateSubnet(cidr, ip)` is true
for every integer cidr in [0,32] against an IPv4-valid ip, but at the
integer 0 the falsy-input check rejects the subnet and `validateSubnet`
returns false. -/
theorem claim1_counterexample :
    ipv4IsValidFourPartDecimal ("192.168.1.1").data = true ∧
      getIpVersion ("192.168.1.1") = some "ipv4" ∧
      validateSubnet (JSValue.num 0) ("192.168.1.1") = false := by
  exact ⟨by decide, by decide, rfl⟩

/-- C1 (amended): for every IPv4-valid ip, `validateSubnet(cidr, ip)` is
true for every integer cidr in [1,32] and false for cidr < 0 or cidr > 32;
for every IPv6-valid ip it is true for cidr in [1,128] and false outside;
and for the integer 0 it is false for every ip (falsy-input check). -/
theorem claim1_cidr_ranges :
    (∀ ip : String, ∀ n : Int, ipv4IsValidFourPartDecimal ip.data = true →
        1 ≤ n → n ≤ 32 → validateSubnet (JSValue.num n) ip = true) ∧
      (∀ ip : String, ∀ n : Int, (ipv6ParseData ip.data).isSome = true →
        1 ≤ n → n ≤ 128 → validateSubnet (JSValue.num n) ip = true) ∧
      (∀ ip : String, ∀ n : Int, ipv4IsValidFourPartDecimal ip.data = true →
        (n < 0 ∨ 32 < n) → validateSubnet (JSValue.num n) ip = false) ∧
      (∀ ip : String, ∀ n : Int, (ipv6ParseData ip.data).isSome = true →
        (n < 0 ∨ 128 < n) → validateSubnet (JSValue.num n) ip = false) ∧
      (∀ ip : String, validateSubnet (JSValue.num 0) ip = false) := by
  refine ⟨?_, ?_, ?_, ?_, fun ip => rfl⟩
  · intro ip n h h1 h32
    unfold validateSubnet
    rw [convertSubnetToCidr_num_v4 (getIpVersion_strict h) (by omega),
      if_pos ⟨by omega, h32⟩]
    rfl
  · intro ip n h h1 h128
    obtain ⟨g, hg⟩ := Option.isSome_iff_exists.mp h
    unfold validateSubnet
    rw [convertSubnetToCidr_num_v6 (getIpVersion_v6 hg) (by omega),
      if_pos ⟨by omega, h128⟩]
    rfl
  · intro ip n h hout
    unfold validateSubnet
    rw [convertSubnetToCidr_num_v4 (getIpVersion_strict h) (by omega),
      if_neg (by omega)]
    rfl
  · intro ip n h hout
    obtain ⟨g, hg⟩ := Option.isSome_iff_exists.mp h
    unfold validateSubnet
    rw [convertSubnetToCidr_num_v6 (getIpVersion_v6 hg) (by omega),
      if_neg (by omega)]
    rfl

/-- C1 witness: the range behavior at concrete addresses and prefix
lengths of both families. -/
theorem claim1_witness :
    validateSubnet (JSValue.num 24) ("192.168.1.1") = true ∧
      validateSubnet (JSValue.num 64) ("::1") = true ∧
      validateSubnet (JSValue.num 64) ("192.168.1.1") = false ∧
      validateSubnet (JSValue.num 129) ("::1") = false :=
  ⟨claim1_cidr_ranges.1 ("192.168.1.1") 24 (by decide) (by decide) (by decide),
   claim1_cidr_ranges.2.1 ("::1") 64 (by decide) (by decide) (by decide),
   claim1_cidr_ranges.2.2.1 ("192.168.1.1") 64 (by decide) (Or.inr (by decide)),
   claim1_cidr_ranges.2.2.2.1 ("::1") 129 (by decide) (Or.inr (by decide))⟩

/-- C2: for every IPv6-valid ip and every subnet normalizing to prefix
length c, if c < 127 and the ip's text equals the network address obtained
by masking it to c bits then `checkIpAndSubnet` returns the
network-address message, and for c of 127 or 128 it never returns that
message. -/
theorem claim2_ipv6_network_exclusion :
    ∀ ip : String, ∀ subnet : JSValue, ∀ c : Nat, ∀ g : List Nat,
      ipv6ParseData ip.data = some g → convertSubnetToCidr subnet ip = some c →
      ((c < 127 → ip.data = v6ToString (natToGroups (maskBits (groupsToNat g) c 128)) →
          checkIpAndSubnet ip subnet = some "IP address cannot be the network address.") ∧
        ((c = 127 ∨ c = 128) →
          checkIpAndSubnet ip subnet ≠ some "IP address cannot be the network address.")) := by
  intro ip subnet c g hg hc
  rw [checkIpAndSubnet_v6_eq hg hc]
  constructor
  · intro hlt heq
    unfold checkIpAndSubnetV6
    rw [if_pos ⟨heq, hlt⟩]
  · intro h127
    unfold checkIpAndSubnetV6
    split
    · next hcond => exact absurd hcond.2 (by omega)
    · simp

/-- C2 witness: the all-zero address "::" equals its own network address
under a /1 mask and is rejected, while under /127 no exclusion applies. -/
theorem claim2_witness :
    checkIpAndSubnet ("::") (JSValue.num 1) =
        some "IP address cannot be the network address." ∧
      checkIpAndSubnet ("::") (JSValue.num 127) ≠
        some "IP address cannot be the network address." :=
  ⟨(claim2_ipv6_network_exclusion ("::") (JSValue.num 1) 1 [0, 0, 0, 0, 0, 0, 0, 0]
      (by decide) (by decide)).1 (by decide) (by decide),
   (claim2_ipv6_network_exclusion ("::") (JSValue.num 127) 127 [0, 0, 0, 0, 0, 0, 0, 0]
      (by decide) (by decide)).2 (Or.inl rfl)⟩

/-- C5: for every strictly valid IPv4 ip and every subnet normalizing to
prefix length c: with c < 31, an ip equal to the derived network address
is rejected with the network-address message and an ip equal to the
derived broadcast address with the broadcast-address message; with c of 31
or 32 neither message is ever returned — concretely both 10.0.0.0/31 and
10.0.0.1/31 pass. -/
theorem claim5_ipv4_host_exclusion :
    (∀ ip : String, ∀ subnet : JSValue, ∀ c : Nat, ∀ o : List Nat,
      ipv4IsValidFourPartDecimal ip.data = true →
      ipv4ParseData ip.data = some o →
      convertSubnetToCidr subnet ip = some c →
      ((c < 31 → ip.data = v4ToString (natToOctets (maskBits (octetsToNat o) c 32)) →
          checkIpAndSubnet ip subnet = some "IP address cannot be the network address.") ∧
        (c < 31 →
          ip.data = v4ToString (natToOctets (maskBits (octetsToNat o) c 32 +
            (2 ^ (32 - c) - 1))) →
          checkIpAndSubnet ip subnet = some "IP address cannot be the broadcast address.") ∧
        (c = 31 ∨ c = 32 →
          checkIpAndSubnet ip subnet ≠ some "IP address cannot be the network address." ∧
          checkIpAndSubnet ip subnet ≠ some "IP address cannot be the broadcast address."))) ∧
      checkIpAndSubnet ("10.0.0.0") (JSValue.num 31) = none ∧
      checkIpAndSubnet ("10.0.0.1") (JSValue.num 31) = none := by
  refine ⟨?_, by decide, by decide⟩
  intro ip subnet c o hstrict ho hc
  have hc32 : c ≤ 32 := by
    rcases convertSubnetToCidr_le hc with ⟨hv, _⟩ | ⟨_, h32⟩
    · rw [getIpVersion_strict hstrict] at hv
      exact absurd hv (by decide)
    · exact h32
  obtain ⟨a, b, c2, d, ho4, ha, hb2, hc2, hd⟩ := ipv4ParseData_bounds ho
  have hvlt : octetsToNat o < 4294967296 := by
    rw [ho4]
    exact octetsToNat_lt ha hb2 hc2 hd
  have hparse := parseCIDRv4_roundtrip c ho hc32
  have hV4 : checkIpAndSubnetV4 ip c =
      (if ip.data = v4ToString (natToOctets (maskBits (octetsToNat o) c 32)) ∧ c < 31 then
        some "IP address cannot be the network address."
      else if ip.data = v4ToString (natToOctets (maskBits (octetsToNat o) c 32 +
          (2 ^ (32 - c) - 1))) ∧ c < 31 then
        some "IP address cannot be the broadcast address."
      else none) := by
    unfold checkIpAndSubnetV4
    rw [networkAddressFromCIDR_of_parse hparse, broadcastAddressFromCIDR_of_parse hparse]
  rw [checkIpAndSubnet_v4_eq ho hstrict hc, hV4]
  refine ⟨?_, ?_, ?_⟩
  · intro hlt heq
    rw [if_pos ⟨heq, hlt⟩]
  · intro hlt heq
    have hne2 : ¬ (ip.data = v4ToString (natToOctets (maskBits (octetsToNat o) c 32)) ∧
        c < 31) := by
      rintro ⟨heq2, _⟩
      rw [heq] at heq2
      have hvv := v4ToString_natToOctets_inj
        (maskBits_add_host_lt c hc32 hvlt) (maskBits_lt c 32 hvlt) heq2
      exact absurd hvv.symm (network_ne_broadcast (by omega))
    rw [if_neg hne2, if_pos ⟨heq, hlt⟩]
  · intro h31
    constructor
    · split
      · next hcond => exact absurd hcond.2 (by omega)
      · split
        · next hcond => decide
        · simp
    · split
      · next hcond => exact absurd hcond.2 (by omega)
      · split
        · next hcond => exact absurd hcond.2 (by omega)
        · simp

/-- C5 witness: the classic /24 examples — 192.168.1.0 is the network
address, 192.168.1.255 the broadcast address — and a /32 case where no
exclusion applies. -/
theorem claim5_witness :
    checkIpAndSubnet ("192.168.1.0") (JSValue.num 24) =
        some "IP address cannot be the network address." ∧
      checkIpAndSubnet ("192.168.1.255") (JSValue.num 24) =
        some "IP address cannot be the broadcast address." ∧
      checkIpAndSubnet ("10.0.0.255") (JSValue.num 32) ≠
        some "IP address cannot be the broadcast address." :=
  ⟨((claim5_ipv4_host_exclusion.1) ("192.168.1.0") (JSValue.num 24) 24 [192, 168, 1, 0]
      (by decide) (by decide) (by decide)).1 (by decide) (by decide),
   ((claim5_ipv4_host_exclusion.1) ("192.168.1.255") (JSValue.num 24) 24 [192, 168, 1, 255]
      (by decide) (by decide) (by decide)).2.1 (by decide) (by decide),
   (((claim5_ipv4_host_exclusion.1) ("10.0.0.255") (JSValue.num 32) 32 [10, 0, 0, 255]
      (by decide) (by decide) (by decide)).2.2 (Or.inr rfl)).2⟩
